import Mathlib

/-!
Verification of the QP construction and solving pipeline of the motion
controller.  Shallow embedding of:

* tasks/task.py — monitor gating of constraint weights, constraint
  registration with shape and name validation;
* qp/free_variable.py — per-derivative limits and the normalized weight ramp;
* qp/qp_controller.py — the H/A/B/BA block matrix dimension bookkeeping, the
  box bound entries of B, the row bound entries of BA, and the
  control-horizon row/column deletion pass of A;
* qp/qp_solver.py — the relaxation retry state machine around the backend.

Real-valued quantities are modelled as rationals.  Derivative orders are
naturals: 0 = position, 1 = velocity, 2 = acceleration, 3 = jerk, 4 = snap.
-/

namespace Giskard

/-- Monitor together with the value of its state expression under one fixed
assignment of monitor states (tasks reference monitors as start, hold and
end gates). -/
structure ExpressionMonitor where
  name : String
  state : ℚ

/-- Record built by Task.add_equality_constraint.  A missing slack limit
stands for the infinite default the source substitutes. -/
structure EqualityConstraint where
  name : String
  quadraticWeight : ℚ
  derivativeGoal : ℚ
  velocityLimit : ℚ
  lowerSlackLimit : Option ℚ
  upperSlackLimit : Option ℚ
  controlHorizon : Option ℕ
deriving DecidableEq

/-- Record built by Task.add_inequality_constraint. -/
structure InequalityConstraint where
  name : String
  quadraticWeight : ℚ
  lowerError : ℚ
  upperError : ℚ
  velocityLimit : ℚ
  lowerSlackLimit : Option ℚ
  upperSlackLimit : Option ℚ
  controlHorizon : Option ℕ
deriving DecidableEq

/-- Task: named grouping of constraints sharing monitor-driven activation
(tasks/task.py).  The Python dicts are insertion ordered and keyed by the
stored constraint name, so they are modelled as lists of records whose names
are kept unique by the registration functions. -/
structure Task where
  name : String
  eqConstraints : List EqualityConstraint
  neqConstraints : List InequalityConstraint
  startMonitors : List ExpressionMonitor
  holdMonitors : List ExpressionMonitor
  endMonitors : List ExpressionMonitor

/-- Weight update performed by Task._apply_monitors_to_constraints on one
constraint record: the stored quadratic weight is multiplied in place by each
start monitor state, then by each hold monitor state, and, when end monitors
exist, by one minus the product of the end monitor states. -/
def applyMonitorsWeight (t : Task) (w : ℚ) : ℚ :=
  let w1 := t.startMonitors.foldl (fun acc m => acc * m.state) w
  let w2 := t.holdMonitors.foldl (fun acc m => acc * m.state) w1
  if t.endMonitors.isEmpty then w2
  else w2 * (1 - t.endMonitors.foldl (fun acc m => acc * m.state) 1)

/-- Task.get_eq_constraints: applies the monitor gating to every stored
equality constraint record.  The records are mutated in place in the source
(the output list holds the very same objects as the dict), so the updated
task is returned next to the output list. -/
def Task.getEqConstraints (t : Task) : Task × List EqualityConstraint :=
  let out := t.eqConstraints.map fun c =>
    { c with quadraticWeight := applyMonitorsWeight t c.quadraticWeight }
  ({ t with eqConstraints := out }, out)

/-- Gating factor of a task as the spec describes it: product of the start
monitor states and the hold monitor states, times one minus the product of
the end monitor states when end monitors exist. -/
def gatingFactor (t : Task) : ℚ :=
  (t.startMonitors.map (fun m => m.state)).prod
    * (t.holdMonitors.map (fun m => m.state)).prod
    * (if t.endMonitors.isEmpty then 1 else 1 - (t.endMonitors.map (fun m => m.state)).prod)

/-- Errors raised by constraint registration.  goalInit models the
GoalInitalizationException of the source (the GoalInitializationError of the
spec taxonomy); keyError models the Python KeyError. -/
inductive RegistrationError
  | goalInit (msg : String)
  | keyError (msg : String)
deriving DecidableEq

/-- Task.add_equality_constraint.  Returns the updated task next to the
error raised, if any.  The stored name falls back to the current map size
when the argument is missing or empty (Python falsy test); the dict
assignment overwrites an existing entry of the same name. -/
def Task.addEqualityConstraint (t : Task) (referenceVelocity equalityBound weight : ℚ)
    (shape : ℕ × ℕ) (name : Option String)
    (lowerSlackLimit upperSlackLimit : Option ℚ) (controlHorizon : Option ℕ) :
    Task × Option RegistrationError :=
  if shape ≠ (1, 1) then
    (t, some (RegistrationError.goalInit "expression must have shape (1, 1)"))
  else
    let nm := match name with
      | some s => if s = "" then toString t.eqConstraints.length else s
      | none => toString t.eqConstraints.length
    let c : EqualityConstraint :=
      { name := nm, quadraticWeight := weight, derivativeGoal := equalityBound,
        velocityLimit := referenceVelocity, lowerSlackLimit := lowerSlackLimit,
        upperSlackLimit := upperSlackLimit, controlHorizon := controlHorizon }
    if t.eqConstraints.any (fun c0 => c0.name == nm) then
      ({ t with eqConstraints := t.eqConstraints.map fun c0 => if c0.name == nm then c else c0 },
       none)
    else
      ({ t with eqConstraints := t.eqConstraints ++ [c] }, none)

/-- Task.add_inequality_constraint.  The stored name is the task name, a
slash, and the given suffix (empty when missing); a duplicate name raises
KeyError before any mutation. -/
def Task.addInequalityConstraint (t : Task) (referenceVelocity lowerError upperError weight : ℚ)
    (shape : ℕ × ℕ) (name : Option String)
    (lowerSlackLimit upperSlackLimit : Option ℚ) (controlHorizon : Option ℕ) :
    Task × Option RegistrationError :=
  if shape ≠ (1, 1) then
    (t, some (RegistrationError.goalInit "expression must have shape (1,1)"))
  else
    let nm := t.name ++ "/" ++ (name.getD "")
    if t.neqConstraints.any (fun c0 => c0.name == nm) then
      (t, some (RegistrationError.keyError "a constraint with this name already exists"))
    else
      let c : InequalityConstraint :=
        { name := nm, quadraticWeight := weight, lowerError := lowerError,
          upperError := upperError, velocityLimit := referenceVelocity,
          lowerSlackLimit := lowerSlackLimit, upperSlackLimit := upperSlackLimit,
          controlHorizon := controlHorizon }
      ({ t with neqConstraints := t.neqConstraints ++ [c] }, none)

/-- Free variable (qp/free_variable.py).  Limits, quadratic weights and the
horizon ramp factor are indexed by derivative order.  The order field is the
highest derivative order of the variable.  Modelled from the spec: the
FreeVariable class consumed by the controller is not under src, so the order
attribute follows the spec (a variable with limits through velocity only has
order 1; limits must be defined at least through velocity). -/
structure FreeVariable where
  name : String
  order : ℕ
  defaultLowerLimits : ℕ → Option ℚ
  defaultUpperLimits : ℕ → Option ℚ
  lowerLimits : ℕ → Option ℚ
  upperLimits : ℕ → Option ℚ
  quadraticWeights : ℕ → ℚ
  horizonFunctions : ℕ → ℚ

/-- FreeVariable.get_lower_limit with default=False: when both the default
limit and the override exist the maximum is taken; a single existing limit is
returned as is; none models the KeyError raise.  With default=True the
default limit is preferred. -/
def get_lower_limit (v : FreeVariable) (derivative : ℕ) (default : Bool) : Option ℚ :=
  match v.defaultLowerLimits derivative, v.lowerLimits derivative with
  | some a, some b => if default then some a else some (max a b)
  | some a, none => some a
  | none, some b => some b
  | none, none => none

/-- FreeVariable.get_upper_limit: mirror image with the minimum. -/
def get_upper_limit (v : FreeVariable) (derivative : ℕ) (default : Bool) : Option ℚ :=
  match v.defaultUpperLimits derivative, v.upperLimits derivative with
  | some a, some b => if default then some a else some (min a b)
  | some a, none => some a
  | none, some b => some b
  | none, none => none

/-- FreeVariable.has_position_limits: both position limits resolve without a
KeyError. -/
def has_position_limits (v : FreeVariable) : Bool :=
  (get_lower_limit v 0 false).isSome && (get_upper_limit v 0 false).isSome

/-- FreeVariable.normalized_weight.  The outer Except models the KeyError of
the upper limit lookup; the inner Option is the Python return value: the
computed expression is returned only when evaluated is true, otherwise the
function falls off its end and yields None. -/
def normalized_weight (v : FreeVariable) (t : ℕ) (derivative : ℕ) (prediction_horizon : ℕ)
    (evaluated : Bool) : Except String (Option ℚ) :=
  let w0 := v.quadraticWeights derivative
  let w : ℚ :=
    if 1 < prediction_horizon then
      let start := w0 * v.horizonFunctions derivative
      let a := (w0 - start) / ((prediction_horizon : ℚ) - 1)
      a * t + start
    else w0
  match get_upper_limit v derivative false with
  | none => Except.error "KeyError"
  | some u =>
    let expr := w * (1 / u) ^ 2
    if evaluated then Except.ok (some expr) else Except.ok none

/-- One entry pair (lower, upper) of the box bound vector B for a free
variable, derivative and horizon step (B.__call__, qp/qp_controller.py):
exactly zero at the last step when the derivative is strictly below
min(variable order, controller order) and the horizon exceeds 2, otherwise
the combined limits; none models the KeyError from a missing limit. -/
def B_bounds (v : FreeVariable) (derivative t N order : ℕ) : Option (ℚ × ℚ) :=
  if t = N - 1 ∧ derivative < min v.order order ∧ 2 < N then some (0, 0)
  else
    match get_lower_limit v derivative false, get_upper_limit v derivative false with
    | some lo, some hi => some (lo, hi)
    | _, _ => none

/-- The same entry pair as the claim words it: zero at the last step exactly
when the controller order is below the variable order (and the horizon
exceeds 2).  Stated from the spec sentence for comparison with B_bounds. -/
def specB_bounds (v : FreeVariable) (derivative t N order : ℕ) : Option (ℚ × ℚ) :=
  if t = N - 1 ∧ order < v.order ∧ 2 < N then some (0, 0)
  else
    match get_lower_limit v derivative false, get_upper_limit v derivative false with
    | some lo, some hi => some (lo, hi)
    | _, _ => none

/-- Derivative inequality constraint record (qp/constraint.py is not under
src; the fields are taken from its construction site in tasks/task.py and
its uses in qp/qp_controller.py).  Per-step lower and upper limits are
functions of the horizon step. -/
structure DerivativeConstraint where
  name : String
  derivative : ℕ
  controlHorizon : ℕ
  lowerLimit : ℕ → ℚ
  upperLimit : ℕ → ℚ
  normalizationFactor : ℚ

/-- Task-space (integral) constraint record as consumed by the matrix
assembler: only the fields the claims touch. -/
structure IntegralConstraint where
  name : String
  controlHorizon : ℕ
  lowerError : ℚ
  upperError : ℚ
  velocityLimit : ℚ

/-- Saturation of a value to an interval.  Models w.limit of the casadi
wrapper (not under src); the spec reads it as clipping a value to the given
interval. -/
def wlimit (x lo hi : ℚ) : ℚ :=
  max lo (min x hi)

/-- Lower entry of BA.get_derivative_Ax_limits for one constraint and step:
the dt-scaled per-step lower limit clipped to plus or minus
normalization_factor times dt. -/
def BA_derivative_Ax_lower (c : DerivativeConstraint) (t : ℕ) (dt : ℚ) : ℚ :=
  wlimit (c.lowerLimit t * dt) (-(c.normalizationFactor * dt)) (c.normalizationFactor * dt)

/-- Upper entry of BA.get_derivative_Ax_limits. -/
def BA_derivative_Ax_upper (c : DerivativeConstraint) (t : ℕ) (dt : ℚ) : ℚ :=
  wlimit (c.upperLimit t * dt) (-(c.normalizationFactor * dt)) (c.normalizationFactor * dt)

/-- BA.get_lower_constraint_error entry for one task constraint: the lower
error clipped to plus or minus velocity_limit times dt times control
horizon. -/
def BA_lower_constraint_error (c : IntegralConstraint) (dt : ℚ) : ℚ :=
  wlimit c.lowerError (-(c.velocityLimit * dt * c.controlHorizon)) (c.velocityLimit * dt * c.controlHorizon)

/-- BA.get_upper_constraint_error entry. -/
def BA_upper_constraint_error (c : IntegralConstraint) (dt : ℚ) : ℚ :=
  wlimit c.upperError (-(c.velocityLimit * dt * c.controlHorizon)) (c.velocityLimit * dt * c.controlHorizon)

/-- Derivative row bound as the claim words it: clipped to plus or minus
normalization_factor times dt times control horizon.  Stated from the spec
sentence for comparison with BA_derivative_Ax_lower. -/
def specDerivativeAxLowerClip (c : DerivativeConstraint) (t : ℕ) (dt : ℚ) : ℚ :=
  wlimit (c.lowerLimit t * dt)
    (-(c.normalizationFactor * dt * c.controlHorizon))
    (c.normalizationFactor * dt * c.controlHorizon)

/-- Sum of the control horizons of the derivative constraints of one
derivative, as Parent.get_derivative_constraints composes with the height
and width bookkeeping of H and A. -/
def sumControlHorizons (dcs : List DerivativeConstraint) (d : ℕ) : ℕ :=
  ((dcs.filter (fun c => c.derivative = d)).map (fun c => c.controlHorizon)).sum

/-- Number of entries the per-step slack enumerations emit for the
derivative constraints of one derivative: one entry per step t below both
the prediction horizon and the control horizon (H.weights,
B.get_derivative_slack_limits, BA.get_derivative_Ax_limits). -/
def sumClampedControlHorizons (dcs : List DerivativeConstraint) (d N : ℕ) : ℕ :=
  ((dcs.filter (fun c => c.derivative = d)).map (fun c => min c.controlHorizon N)).sum

/-- H._compute_height: free-variable weight entries (min of variable order
and controller order, per horizon step), plus the derivative constraint
slack entries for every derivative from velocity through the controller
order, plus one error slack per task constraint.  Counts coincide with the
emitted dict entries because registration keeps names unique. -/
def H_compute_height (fvs : List FreeVariable) (cs : List IntegralConstraint)
    (dcs : List DerivativeConstraint) (N order : ℕ) : ℕ :=
  (fvs.map (fun v => min v.order order * N)).sum
    + ((List.range' 1 order).map (fun d => sumControlHorizons dcs d)).sum
    + cs.length

/-- Number of entries B.__call__ emits: box bounds for every free variable,
horizon step and derivative from velocity through min(variable order,
controller order), then the per-step derivative slack bounds, then one error
slack bound per task constraint. -/
def B_len (fvs : List FreeVariable) (cs : List IntegralConstraint)
    (dcs : List DerivativeConstraint) (N order : ℕ) : ℕ :=
  (fvs.map (fun v => N * min v.order order)).sum
    + ((List.range' 1 order).map (fun d => sumClampedControlHorizons dcs d N)).sum
    + cs.length

/-- Number of entries BA.__call__ emits: position limit rows for every step
and position-limited variable; per variable one last-value row for each
derivative o with 1 <= o <= min(variable order, controller order), appended
only for o below the controller order; derivative link rows for each step
before the last and each o with o + 1 <= min(variable order, controller
order), appended only for o below the controller order; then the per-step
derivative constraint row bounds and one error row per task constraint. -/
def BA_len (fvs : List FreeVariable) (cs : List IntegralConstraint)
    (dcs : List DerivativeConstraint) (N order : ℕ) : ℕ :=
  N * (fvs.filter (fun v => has_position_limits v)).length
    + ((List.range' 1 (order - 1)).map
        (fun o => (fvs.filter (fun v => o ≤ min v.order order)).length)).sum
    + ((List.range' 1 (order - 1)).map
        (fun o => (N - 1) * (fvs.filter (fun v => o + 1 ≤ min v.order order)).length)).sum
    + ((List.range' 1 order).map (fun d => sumClampedControlHorizons dcs d N)).sum
    + cs.length

/-- A._compute_width: velocity through the controller order for every joint
and step (the controller order uniformly, not the per-variable order), plus
one slack column per active step of each velocity, acceleration and jerk
constraint, plus one error slack column per task constraint.  Python int
arithmetic, hence integers. -/
def A_compute_width (fvs : List FreeVariable) (cs : List IntegralConstraint)
    (dcs : List DerivativeConstraint) (N order : ℕ) : ℤ :=
  (fvs.length : ℤ) * N * order
    + (sumControlHorizons dcs 1 : ℤ) + (sumControlHorizons dcs 2 : ℤ)
    + (sumControlHorizons dcs 3 : ℤ) + cs.length

/-- A._compute_height: position limit rows of the non-continuous joints for
every step, derivative link rows for every joint, step and order below the
controller order, then the same constraint row counts as the width. -/
def A_compute_height (fvs : List FreeVariable) (cs : List IntegralConstraint)
    (dcs : List DerivativeConstraint) (N order : ℕ) : ℤ :=
  (N : ℤ) * ((fvs.length : ℤ) - ((fvs.filter (fun v => ! has_position_limits v)).length : ℤ))
    + (fvs.length : ℤ) * N * ((order : ℤ) - 1)
    + (sumControlHorizons dcs 1 : ℤ) + (sumControlHorizons dcs 2 : ℤ)
    + (sumControlHorizons dcs 3 : ℤ) + cs.length

/-- Controller order derived in QPController.add_free_variables: the minimum
of prediction_horizon + 1 and the largest variable order. -/
def controllerOrder (N : ℕ) (fvs : List FreeVariable) : ℕ :=
  min (N + 1) ((fvs.map (fun v => v.order)).foldr max 0)

/-- Rows of the velocity constraint block of A that survive the deletion
pass for one constraint: one row per horizon step, deleted when t + 1
exceeds the control horizon (A.construct_A).  The acceleration and jerk
blocks run the identical loop. -/
def A_velocity_rows_kept (N ch : ℕ) : ℕ :=
  ((List.range N).filter (fun t => ¬ (t + 1 > ch))).length

/-- Slack columns of the velocity constraint block of A that survive the
deletion pass for one constraint (same condition, horizontal index). -/
def A_velocity_columns_kept (N ch : ℕ) : ℕ :=
  ((List.range N).filter (fun t => ¬ (t + 1 > ch))).length

/-- Weight entries H.weights emits for one derivative constraint: one per
step t with t below the control horizon. -/
def H_derivative_slack_entries (N ch : ℕ) : ℕ :=
  ((List.range N).filter (fun t => t < ch)).length

/-- Slack bound entries B.get_derivative_slack_limits emits for one
derivative constraint. -/
def B_derivative_slack_entries (N ch : ℕ) : ℕ :=
  ((List.range N).filter (fun t => t < ch)).length

/-- Row bound entries BA.get_derivative_Ax_limits emits for one derivative
constraint. -/
def BA_derivative_bound_entries (N ch : ℕ) : ℕ :=
  ((List.range N).filter (fun t => t < ch)).length

/-- Exception kinds of the solve path.  Modelled from the spec (the
exceptions module is not under src): HardConstraintsViolatedException is a
subclass of InfeasibleException, which is a subclass of QPSolverException,
matching the error taxonomy where the hard violation is a fatal special case
of infeasibility. -/
inductive Exn
  | qpSolverExn
  | infeasibleExn
  | hardConstraintsViolatedExn
deriving DecidableEq

/-- Membership test of the QPSolverException handler clauses. -/
def isQPSolverException : Exn → Bool :=
  fun _ => true

/-- Membership test of the InfeasibleException handler clauses. -/
def isInfeasibleException : Exn → Bool
  | Exn.qpSolverExn => false
  | _ => true

/-- Membership test of the HardConstraintsViolatedException checks. -/
def isHardConstraintsViolated : Exn → Bool
  | Exn.hardConstraintsViolatedExn => true
  | _ => false

/-- Mutable solver state: the retry budget (retries_with_relaxed_constraints,
a Python int) and, as bookkeeping for the claim, the number of solver calls
made on relaxed problem data. -/
structure RetryState where
  retries : ℤ
  relaxedCalls : ℕ
deriving DecidableEq

/-- QPSWIFTFormatter.compute_violated_constraints specialised to a problem
that is infeasible on every attempt: the solver call on the relaxed data
raises the backend exception e, the QPSolverException handler restores the
budget and re-raises. -/
def computeViolatedAlwaysInfeasible (e : Exn) (s : RetryState) :
    Except Exn Unit × RetryState :=
  if isQPSolverException e then
    (Except.error e, { retries := s.retries + 1, relaxedCalls := s.relaxedCalls + 1 })
  else
    (Except.error e, { s with relaxedCalls := s.relaxedCalls + 1 })

/-- QPSWIFTFormatter.relaxed_problem_data_to_qpSWIFT_format on an
always-infeasible problem: decrement the budget, raise
HardConstraintsViolatedException when it drops to zero or below, otherwise
attempt the relaxed solve. -/
def relaxedProblemDataAlwaysInfeasible (e : Exn) (s : RetryState) :
    Except Exn Unit × RetryState :=
  let s1 : RetryState := { s with retries := s.retries - 1 }
  if s1.retries ≤ 0 then (Except.error Exn.hardConstraintsViolatedExn, s1)
  else computeViolatedAlwaysInfeasible e s1

/-- QPSolver.solve_and_retry on a problem that is infeasible on every
attempt with backend exception e: the first solve raises e, the
QPSolverException handler triggers the relaxed solve; a resulting
InfeasibleException is re-raised when it is a hard violation, otherwise the
original exception propagates; anything else propagates unchanged. -/
def solveAndRetryAlwaysInfeasible (e : Exn) (s : RetryState) :
    Except Exn Unit × RetryState :=
  if isQPSolverException e then
    match relaxedProblemDataAlwaysInfeasible e s with
    | (Except.error e2, s2) =>
      if isInfeasibleException e2 then
        if isHardConstraintsViolated e2 then (Except.error e2, s2)
        else (Except.error e, s2)
      else (Except.error e2, s2)
    | (Except.ok u, s2) => (Except.ok u, s2)
  else (Except.error e, s)

/-- Concrete task of the idempotence check: one equality constraint of
declared weight 1 and one start monitor whose state expression evaluates to
one half. -/
def cTask : Task :=
  { name := "T"
    eqConstraints := [{ name := "c", quadraticWeight := 1, derivativeGoal := 0,
                        velocityLimit := 1, lowerSlackLimit := none,
                        upperSlackLimit := none, controlHorizon := none }]
    neqConstraints := []
    startMonitors := [{ name := "m", state := 1 / 2 }]
    holdMonitors := []
    endMonitors := [] }

/-- Concrete task of the registration check: one equality constraint already
registered under the name c. -/
def cTask9 : Task :=
  { name := "T9"
    eqConstraints := [{ name := "c", quadraticWeight := 1, derivativeGoal := 0,
                        velocityLimit := 1, lowerSlackLimit := none,
                        upperSlackLimit := none, controlHorizon := none }]
    neqConstraints := []
    startMonitors := []
    holdMonitors := []
    endMonitors := [] }

/-- Concrete task of the monitor gating witness: gating factor 1. -/
def cTask3w : Task :=
  { name := "Tw"
    eqConstraints := [{ name := "c", quadraticWeight := 2, derivativeGoal := 0,
                        velocityLimit := 1, lowerSlackLimit := none,
                        upperSlackLimit := none, controlHorizon := none }]
    neqConstraints := []
    startMonitors := [{ name := "m", state := 1 }]
    holdMonitors := []
    endMonitors := [] }

/-- Concrete free variable of order 1 (position and velocity limits only). -/
def cVarA : FreeVariable :=
  { name := "a", order := 1
    defaultLowerLimits := fun d => if d ≤ 1 then some (-1) else none
    defaultUpperLimits := fun d => if d ≤ 1 then some 1 else none
    lowerLimits := fun _ => none
    upperLimits := fun _ => none
    quadraticWeights := fun _ => 1
    horizonFunctions := fun _ => 1 / 10 }

/-- Concrete free variable of order 3 (limits through jerk). -/
def cVarB : FreeVariable :=
  { name := "b", order := 3
    defaultLowerLimits := fun d => if d ≤ 3 then some (-1) else none
    defaultUpperLimits := fun d => if d ≤ 3 then some 1 else none
    lowerLimits := fun _ => none
    upperLimits := fun _ => none
    quadraticWeights := fun _ => 1
    horizonFunctions := fun _ => 1 / 10 }

/-- Concrete free variable of order 2 with symmetric limits of magnitude 5,
used against the last-step zero bound condition. -/
def cVar6 : FreeVariable :=
  { name := "j", order := 2
    defaultLowerLimits := fun d => if d ≤ 2 then some (-5) else none
    defaultUpperLimits := fun d => if d ≤ 2 then some 5 else none
    lowerLimits := fun _ => none
    upperLimits := fun _ => none
    quadraticWeights := fun _ => 1
    horizonFunctions := fun _ => 1 / 10 }

/-- Concrete free variable of the normalized weight witness: upper velocity
limit 2, quadratic weight 1, horizon factor one tenth. -/
def cVarW : FreeVariable :=
  { name := "w", order := 1
    defaultLowerLimits := fun d => if d ≤ 1 then some (-2) else none
    defaultUpperLimits := fun d => if d ≤ 1 then some 2 else none
    lowerLimits := fun _ => none
    upperLimits := fun _ => none
    quadraticWeights := fun _ => 1
    horizonFunctions := fun _ => 1 / 10 }

/-- Concrete velocity constraint of the row clipping check: normalization
factor 1, control horizon 2, per-step limits 100. -/
def cDeriv7 : DerivativeConstraint :=
  { name := "d", derivative := 1, controlHorizon := 2
    lowerLimit := fun _ => 100
    upperLimit := fun _ => 100
    normalizationFactor := 1 }

/-- Concrete task constraint of the row clipping witness. -/
def cIntegral7 : IntegralConstraint :=
  { name := "e", controlHorizon := 2, lowerError := 0, upperError := 0, velocityLimit := 1 }

/- ------------------------------------------------------------------ -/
/- Helper lemmas shared by the claim theorems.                         -/
/- ------------------------------------------------------------------ -/

theorem foldl_mul_state (l : List ExpressionMonitor) (w : ℚ) :
    l.foldl (fun acc m => acc * m.state) w = w * (l.map (fun m => m.state)).prod := by
  induction l generalizing w with
  | nil => simp
  | cons m l ih =>
    simp only [List.foldl_cons, List.map_cons, List.prod_cons, ih]
    ring

theorem applyMonitorsWeight_eq (t : Task) (w : ℚ) :
    applyMonitorsWeight t w = w * gatingFactor t := by
  unfold applyMonitorsWeight gatingFactor
  by_cases h : t.endMonitors.isEmpty <;>
    simp only [h, if_true, if_false, foldl_mul_state, Bool.false_eq_true, ite_true, ite_false] <;>
    ring

theorem getEqConstraints_weights (t : Task) :
    ((t.getEqConstraints).2).map (fun c => c.quadraticWeight)
      = t.eqConstraints.map (fun c => c.quadraticWeight * gatingFactor t) := by
  simp [Task.getEqConstraints, List.map_map, Function.comp, applyMonitorsWeight_eq]

/-- Claim C5: for every constraint of a task, the weight produced by one
constraint retrieval equals the declared quadratic weight times the product
of the start and hold monitor states, times one minus the product of the end
monitor states when end monitors exist; the gating changes neither the
number of constraint records nor any other field of the records, so the row
and column counts of the QP are untouched. -/
theorem monitor_gating_weight_formula (t : Task) :
    ((t.getEqConstraints).2).length = t.eqConstraints.length ∧
    ((t.getEqConstraints).2).map (fun c => c.quadraticWeight)
      = t.eqConstraints.map (fun c =>
          c.quadraticWeight
            * ((t.startMonitors.map (fun m => m.state)).prod
                * (t.holdMonitors.map (fun m => m.state)).prod
                * (if t.endMonitors.isEmpty then 1
                   else 1 - (t.endMonitors.map (fun m => m.state)).prod))) ∧
    ((t.getEqConstraints).2).map (fun c =>
        (c.name, c.derivativeGoal, c.velocityLimit, c.lowerSlackLimit,
         c.upperSlackLimit, c.controlHorizon))
      = t.eqConstraints.map (fun c =>
        (c.name, c.derivativeGoal, c.velocityLimit, c.lowerSlackLimit,
         c.upperSlackLimit, c.controlHorizon)) := by
  refine ⟨?_, ?_, ?_⟩ <;>
    simp [Task.getEqConstraints, List.map_map, Function.comp, applyMonitorsWeight_eq,
      gatingFactor, mul_assoc]

/-- Claim C3, counterexample: with one start monitor whose state is one
half and one constraint of declared weight 1, the first retrieval yields
weight one half and the second retrieval one quarter, so retrieving the
constraints twice under unchanged monitor states does not yield the same
weights. -/
theorem get_eq_constraints_not_idempotent :
    ((cTask.getEqConstraints).2).map (fun c => c.quadraticWeight) = [1 / 2] ∧
    (((cTask.getEqConstraints).1.getEqConstraints).2).map (fun c => c.quadraticWeight)
      = [1 / 4] ∧
    ([1 / 2] : List ℚ) ≠ [1 / 4] := by
  refine ⟨?_, ?_, ?_⟩ <;>
    norm_num [cTask, Task.getEqConstraints, applyMonitorsWeight]

/-- Claim C3, amended: constraint retrieval accumulates on the stored
records: a second retrieval multiplies the weights of the first retrieval by
the gating factor again, and the two retrievals agree exactly when the
gating factor is multiplicatively idempotent (for instance all monitor
states boolean). -/
theorem get_eq_constraints_accumulates_gating (t : Task) :
    (((t.getEqConstraints).1.getEqConstraints).2).map (fun c => c.quadraticWeight)
      = (((t.getEqConstraints).2).map (fun c => c.quadraticWeight)).map
          (fun w => w * gatingFactor t) ∧
    (gatingFactor t * gatingFactor t = gatingFactor t →
      (((t.getEqConstraints).1.getEqConstraints).2).map (fun c => c.quadraticWeight)
        = ((t.getEqConstraints).2).map (fun c => c.quadraticWeight)) := by
  have hfix : gatingFactor (t.getEqConstraints).1 = gatingFactor t := rfl
  have hsame : (t.getEqConstraints).1.eqConstraints = (t.getEqConstraints).2 := rfl
  have h2nd : (((t.getEqConstraints).1.getEqConstraints).2).map (fun c => c.quadraticWeight)
      = (((t.getEqConstraints).2).map (fun c => c.quadraticWeight)).map
          (fun w => w * gatingFactor t) := by
    rw [getEqConstraints_weights, hfix, hsame]
    simp [List.map_map, Function.comp]
  refine ⟨h2nd, fun h => ?_⟩
  rw [h2nd, getEqConstraints_weights]
  simp only [List.map_map, Function.comp]
  refine List.map_congr_left fun c _ => ?_
  show c.quadraticWeight * gatingFactor t * gatingFactor t
      = c.quadraticWeight * gatingFactor t
  rw [mul_assoc, h]

/-- Witness of the amended claim C3 at a task whose gating factor is 1. -/
theorem get_eq_constraints_accumulates_gating_witness :
    (((cTask3w.getEqConstraints).1.getEqConstraints).2).map (fun c => c.quadraticWeight)
      = ((cTask3w.getEqConstraints).2).map (fun c => c.quadraticWeight) :=
  (get_eq_constraints_accumulates_gating cTask3w).2 (by norm_num [gatingFactor, cTask3w])

/-- Claim C9, counterexample: adding an equality constraint whose name c is
already registered raises no error at all; the dict assignment silently
overwrites the stored record (here the declared weight changes from 1 to 5),
where the claim demands a GoalInitializationError failure leaving the map
unchanged. -/
theorem duplicate_equality_name_overwrites :
    (cTask9.addEqualityConstraint 1 0 5 (1, 1) (some "c") none none none).2 = none ∧
    ((cTask9.addEqualityConstraint 1 0 5 (1, 1) (some "c") none none none).1.eqConstraints.map
        (fun c => (c.name, c.quadraticWeight)))
      = [("c", 5)] := by
  constructor <;>
    simp [cTask9, Task.addEqualityConstraint]

theorem ite_pair_snd_none {α β : Type} (c : Prop) [Decidable c] (a b : α) :
    (if c then (a, (none : Option β)) else (b, none)).2 = none := by
  split <;> rfl

/-- Claim C9, amended: registration fails with GoalInitializationError
exactly when the task expression shape is not 1 by 1 and then leaves the
task unchanged; a duplicate name makes add_inequality_constraint fail with
KeyError leaving the task unchanged, while add_equality_constraint never
fails on a duplicate name. -/
theorem constraint_registration_errors_amended (t : Task)
    (rv eb le ue w : ℚ) (shape : ℕ × ℕ) (name : Option String)
    (lsl usl : Option ℚ) (chz : Option ℕ) :
    (shape ≠ (1, 1) →
      t.addEqualityConstraint rv eb w shape name lsl usl chz
          = (t, some (RegistrationError.goalInit "expression must have shape (1, 1)")) ∧
      t.addInequalityConstraint rv le ue w shape name lsl usl chz
          = (t, some (RegistrationError.goalInit "expression must have shape (1,1)"))) ∧
    ((t.addEqualityConstraint rv eb w shape name lsl usl chz).2 ≠ none →
      shape ≠ (1, 1) ∧ (t.addEqualityConstraint rv eb w shape name lsl usl chz).1 = t) ∧
    (shape = (1, 1) →
      t.neqConstraints.any (fun c0 => c0.name == t.name ++ "/" ++ (name.getD "")) = true →
      t.addInequalityConstraint rv le ue w shape name lsl usl chz
          = (t, some (RegistrationError.keyError "a constraint with this name already exists"))) := by
  refine ⟨fun hs => ?_, fun he => ?_, fun hs hdup => ?_⟩
  · constructor
    · unfold Task.addEqualityConstraint
      rw [if_pos hs]
    · unfold Task.addInequalityConstraint
      rw [if_pos hs]
  · by_cases hs : shape = (1, 1)
    · exfalso
      apply he
      unfold Task.addEqualityConstraint
      rw [if_neg (by simp [hs])]
      exact ite_pair_snd_none _ _ _
    · refine ⟨hs, ?_⟩
      unfold Task.addEqualityConstraint
      rw [if_pos hs]
  · unfold Task.addInequalityConstraint
    rw [if_neg (by simp [hs]), if_pos hdup]

/-- Witness of the amended claim C9: a 2 by 1 expression is rejected with
the shape error and the task is returned unchanged. -/
theorem constraint_registration_errors_amended_witness :
    cTask9.addEqualityConstraint 1 0 5 (2, 1) (some "x") none none none
      = (cTask9, some (RegistrationError.goalInit "expression must have shape (1, 1)")) :=
  (((constraint_registration_errors_amended cTask9 1 0 0 0 5 (2, 1) (some "x") none none none).1
    (by norm_num))).1

/-- Claim C10: for every free variable whose upper limit resolves, calling
normalized_weight with evaluated set to false returns None rather than the
computed weight expression: the function only returns the expression behind
the evaluated guard and otherwise falls off its end. -/
theorem normalized_weight_unevaluated_none (v : FreeVariable) (t d N : ℕ) (u : ℚ)
    (h : get_upper_limit v d false = some u) :
    normalized_weight v t d N false = Except.ok none := by
  unfold normalized_weight
  rw [h]
  rfl

/-- Witness of claim C10 at a concrete variable with velocity limit 2. -/
theorem normalized_weight_unevaluated_none_witness :
    normalized_weight cVarW 0 1 3 false = Except.ok none :=
  normalized_weight_unevaluated_none cVarW 0 1 3 2 rfl

/-- Claim C8: with evaluated true and a prediction horizon above 1, the
normalized weight at step t is the linear interpolation from base times the
horizon factor at step 0 to the base weight at the last step, divided by the
square of the upper limit of the derivative. -/
theorem normalized_weight_formula (v : FreeVariable) (t d N : ℕ) (u : ℚ)
    (hN : 1 < N) (hu : get_upper_limit v d false = some u) :
    normalized_weight v t d N true
      = Except.ok (some
          ((v.quadraticWeights d * v.horizonFunctions d
              + (t : ℚ) * (v.quadraticWeights d - v.quadraticWeights d * v.horizonFunctions d)
                  / ((N : ℚ) - 1)) / u ^ 2)) := by
  unfold normalized_weight
  rw [hu]
  simp only [hN, if_true, ite_true]
  have hval : ((v.quadraticWeights d - v.quadraticWeights d * v.horizonFunctions d)
        / ((N : ℚ) - 1) * (t : ℚ) + v.quadraticWeights d * v.horizonFunctions d) * (1 / u) ^ 2
      = (v.quadraticWeights d * v.horizonFunctions d
          + (t : ℚ) * (v.quadraticWeights d - v.quadraticWeights d * v.horizonFunctions d)
              / ((N : ℚ) - 1)) / u ^ 2 := by
    rw [div_pow, one_pow, mul_one_div]
    ring
  rw [hval]

/-- Witness of claim C8 at step 1 of horizon 3 with upper limit 2. -/
theorem normalized_weight_formula_witness :
    normalized_weight cVarW 1 1 3 true
      = Except.ok (some
          ((cVarW.quadraticWeights 1 * cVarW.horizonFunctions 1
              + ((1 : ℕ) : ℚ) * (cVarW.quadraticWeights 1
                  - cVarW.quadraticWeights 1 * cVarW.horizonFunctions 1)
                  / (((3 : ℕ) : ℚ) - 1)) / 2 ^ 2)) :=
  normalized_weight_formula cVarW 1 1 3 2 (by norm_num) rfl

/-- Claim C6, counterexample: for a variable of order 2 under controller
order 2 (so the controller order is not below the variable order), horizon
N = 3, velocity derivative, last step t = 2, the code emits the bound pair
(0, 0) while the claim predicts the combined limits (-5, 5). -/
theorem last_step_zero_bound_condition_cx :
    B_bounds cVar6 1 2 3 2 = some (0, 0) ∧
    specB_bounds cVar6 1 2 3 2 = some (-5, 5) ∧
    B_bounds cVar6 1 2 3 2 ≠ specB_bounds cVar6 1 2 3 2 := by
  have e1 : B_bounds cVar6 1 2 3 2 = some (0, 0) := by
    norm_num [B_bounds, cVar6, get_lower_limit, get_upper_limit]
  have e2 : specB_bounds cVar6 1 2 3 2 = some (-5, 5) := by
    norm_num [specB_bounds, cVar6, get_lower_limit, get_upper_limit]
  refine ⟨e1, e2, ?_⟩
  rw [e1, e2]
  intro hc
  have h0 := congrArg (fun p => p.getD (0, 0) |>.fst) hc
  norm_num at h0

/-- Claim C6, amended: the bound pair is exactly (0, 0) at the last horizon
step when the enumerated derivative is strictly below min(variable order,
controller order) and the horizon exceeds 2; in every other case it is the
pair of combined lower and upper limits of the derivative. -/
theorem last_step_zero_bound_amended (v : FreeVariable) (d t N order : ℕ) (lo hi : ℚ)
    (hlo : get_lower_limit v d false = some lo)
    (hhi : get_upper_limit v d false = some hi) :
    (t = N - 1 ∧ d < min v.order order ∧ 2 < N → B_bounds v d t N order = some (0, 0)) ∧
    (¬ (t = N - 1 ∧ d < min v.order order ∧ 2 < N) →
      B_bounds v d t N order = some (lo, hi)) := by
  constructor
  · intro h
    simp [B_bounds, h]
  · intro h
    simp only [B_bounds, if_neg h]
    rw [hlo, hhi]

/-- Witness of the amended claim C6 away from the last step. -/
theorem last_step_zero_bound_amended_witness :
    B_bounds cVar6 1 0 3 2 = some (-5, 5) :=
  (last_step_zero_bound_amended cVar6 1 0 3 2 (-5) 5 rfl rfl).2 (by norm_num)

/-- Claim C7, counterexample: a velocity constraint with normalization
factor 1 and control horizon 2, with dt one tenth and a raw per-step limit
of 100, gets the row bound 1/10 (clipped to plus or minus factor times dt),
while the claimed interval of plus or minus factor times dt times control
horizon would give 1/5. -/
theorem derivative_row_clip_cx :
    BA_derivative_Ax_lower cDeriv7 0 (1 / 10) = 1 / 10 ∧
    specDerivativeAxLowerClip cDeriv7 0 (1 / 10) = 1 / 5 ∧
    BA_derivative_Ax_lower cDeriv7 0 (1 / 10) ≠ specDerivativeAxLowerClip cDeriv7 0 (1 / 10) := by
  refine ⟨?_, ?_, ?_⟩ <;>
    norm_num [BA_derivative_Ax_lower, specDerivativeAxLowerClip, wlimit, cDeriv7]

theorem wlimit_ge (x lo hi : ℚ) : lo ≤ wlimit x lo hi :=
  le_max_left lo (min x hi)

theorem wlimit_le (x lo hi : ℚ) (h : lo ≤ hi) : wlimit x lo hi ≤ hi :=
  max_le h (min_le_right x hi)

theorem wlimit_eq_self (x lo hi : ℚ) (h1 : lo ≤ x) (h2 : x ≤ hi) : wlimit x lo hi = x := by
  unfold wlimit
  rw [min_eq_left h2, max_eq_right h1]

/-- Claim C7, amended: derivative-constraint row bounds are clipped to plus
or minus normalization_factor times dt (no control-horizon factor), values
already inside that interval passing through unchanged; task-error row
bounds are clipped to plus or minus velocity_limit times dt times control
horizon, the normalization factor there being the reference velocity
limit. -/
theorem row_bound_clipping_amended (c : DerivativeConstraint) (ic : IntegralConstraint)
    (t : ℕ) (dt : ℚ)
    (h1 : 0 ≤ c.normalizationFactor * dt)
    (h2 : 0 ≤ ic.velocityLimit * dt * ic.controlHorizon) :
    (-(c.normalizationFactor * dt) ≤ BA_derivative_Ax_lower c t dt ∧
      BA_derivative_Ax_lower c t dt ≤ c.normalizationFactor * dt) ∧
    (-(c.normalizationFactor * dt) ≤ BA_derivative_Ax_upper c t dt ∧
      BA_derivative_Ax_upper c t dt ≤ c.normalizationFactor * dt) ∧
    (-(c.normalizationFactor * dt) ≤ c.lowerLimit t * dt →
      c.lowerLimit t * dt ≤ c.normalizationFactor * dt →
      BA_derivative_Ax_lower c t dt = c.lowerLimit t * dt) ∧
    (-(ic.velocityLimit * dt * ic.controlHorizon) ≤ BA_lower_constraint_error ic dt ∧
      BA_lower_constraint_error ic dt ≤ ic.velocityLimit * dt * ic.controlHorizon) ∧
    (-(ic.velocityLimit * dt * ic.controlHorizon) ≤ BA_upper_constraint_error ic dt ∧
      BA_upper_constraint_error ic dt ≤ ic.velocityLimit * dt * ic.controlHorizon) := by
  have hb1 : -(c.normalizationFactor * dt) ≤ c.normalizationFactor * dt := by linarith
  have hb2 : -(ic.velocityLimit * dt * (ic.controlHorizon : ℚ))
      ≤ ic.velocityLimit * dt * (ic.controlHorizon : ℚ) := by linarith
  refine ⟨⟨wlimit_ge _ _ _, wlimit_le _ _ _ hb1⟩, ⟨wlimit_ge _ _ _, wlimit_le _ _ _ hb1⟩,
    fun ha hb => wlimit_eq_self _ _ _ ha hb,
    ⟨wlimit_ge _ _ _, wlimit_le _ _ _ hb2⟩, ⟨wlimit_ge _ _ _, wlimit_le _ _ _ hb2⟩⟩

/-- Witness of the amended claim C7 at the concrete constraints with dt one
tenth. -/
theorem row_bound_clipping_amended_witness :
    BA_derivative_Ax_lower cDeriv7 0 (1 / 10) ≤ cDeriv7.normalizationFactor * (1 / 10) :=
  ((row_bound_clipping_amended cDeriv7 cIntegral7 0 (1 / 10)
    (by norm_num [cDeriv7]) (by norm_num [cIntegral7])).1).2

/-- Claim C2, counterexample: with retry budget 2 and a problem infeasible
on every attempt, solve_and_retry propagates the original infeasibility
exception (not HardConstraintsViolatedException) after a single relaxed
solver call, and the budget is restored to 2 rather than permanently
decremented. -/
theorem retry_budget_not_exhausted_always_infeasible :
    solveAndRetryAlwaysInfeasible Exn.infeasibleExn { retries := 2, relaxedCalls := 0 }
      = (Except.error Exn.infeasibleExn, { retries := 2, relaxedCalls := 1 }) ∧
    Exn.infeasibleExn ≠ Exn.hardConstraintsViolatedExn := by
  constructor
  · norm_num [solveAndRetryAlwaysInfeasible, relaxedProblemDataAlwaysInfeasible,
      computeViolatedAlwaysInfeasible, isQPSolverException, isInfeasibleException,
      isHardConstraintsViolated]
  · intro h
    cases h

/-- Claim C2, amended: on a problem that is infeasible on every attempt,
with retry budget at most 1 the relaxed path raises
HardConstraintsViolatedException at once with zero relaxed solver calls and
budget k - 1, while with budget at least 2 each solve_and_retry call makes
exactly one relaxed solver call, restores the budget to k and propagates
the original backend exception: the budget is never exhausted and no
HardConstraintsViolatedException arises from exhaustion. -/
theorem solve_and_retry_relaxation_behavior (e : Exn) (k : ℤ) :
    (2 ≤ k →
      solveAndRetryAlwaysInfeasible e { retries := k, relaxedCalls := 0 }
        = (Except.error e, { retries := k, relaxedCalls := 1 })) ∧
    (k ≤ 1 →
      solveAndRetryAlwaysInfeasible e { retries := k, relaxedCalls := 0 }
        = (Except.error Exn.hardConstraintsViolatedExn,
           { retries := k - 1, relaxedCalls := 0 })) := by
  constructor
  · intro hk
    have hleft : ¬ (k - 1 ≤ 0) := by omega
    have hfix : k - 1 + 1 = k := by omega
    cases e <;>
      simp [solveAndRetryAlwaysInfeasible, relaxedProblemDataAlwaysInfeasible,
        computeViolatedAlwaysInfeasible, isQPSolverException, isInfeasibleException,
        isHardConstraintsViolated, hleft, hfix]
  · intro hk
    have hleft : k - 1 ≤ 0 := by omega
    cases e <;>
      simp [solveAndRetryAlwaysInfeasible, relaxedProblemDataAlwaysInfeasible,
        computeViolatedAlwaysInfeasible, isQPSolverException, isInfeasibleException,
        isHardConstraintsViolated, hleft]

/-- Witness of the amended claim C2 at budget 3 with an infeasible backend
exception. -/
theorem solve_and_retry_relaxation_behavior_witness :
    solveAndRetryAlwaysInfeasible Exn.infeasibleExn { retries := 3, relaxedCalls := 0 }
      = (Except.error Exn.infeasibleExn, { retries := 3, relaxedCalls := 1 }) :=
  (solve_and_retry_relaxation_behavior Exn.infeasibleExn 3).1 (by norm_num)

theorem length_filter_range_lt (N ch : ℕ) :
    ((List.range N).filter (fun t => t < ch)).length = min ch N := by
  induction N with
  | zero => simp
  | succ n ih =>
    rw [List.range_succ, List.filter_append, List.length_append, ih]
    by_cases h : n < ch <;> simp [h] <;> omega

theorem kept_steps_eq_min (N ch : ℕ) :
    ((List.range N).filter (fun t => ¬ (t + 1 > ch))).length = min ch N := by
  have hcong : ∀ t ∈ List.range N,
      (decide ¬ (t + 1 > ch)) = decide (t < ch) := by
    intro t _
    rcases Nat.lt_or_ge t ch with h | h <;> simp <;> omega
  rw [List.filter_congr hcong, length_filter_range_lt]

/-- Claim C4: a derivative constraint with control horizon c, with
1 <= c < N, keeps exactly c rows and exactly c slack columns in the
assembled matrix A after the marked row and column deletion pass, and the
H, B and BA enumerations each emit exactly c entries for it, independently
of N. -/
theorem control_horizon_truncation (N ch : ℕ) (h1 : 1 ≤ ch) (h2 : ch < N) :
    A_velocity_rows_kept N ch = ch ∧
    A_velocity_columns_kept N ch = ch ∧
    H_derivative_slack_entries N ch = ch ∧
    B_derivative_slack_entries N ch = ch ∧
    BA_derivative_bound_entries N ch = ch := by
  have hm : min ch N = ch := by omega
  exact ⟨by rw [A_velocity_rows_kept, kept_steps_eq_min, hm],
    by rw [A_velocity_columns_kept, kept_steps_eq_min, hm],
    by rw [H_derivative_slack_entries, length_filter_range_lt, hm],
    by rw [B_derivative_slack_entries, length_filter_range_lt, hm],
    by rw [BA_derivative_bound_entries, length_filter_range_lt, hm]⟩

/-- Witness of claim C4 at control horizon 2 under prediction horizon 5. -/
theorem control_horizon_truncation_witness :
    A_velocity_rows_kept 5 2 = 2 ∧
    A_velocity_columns_kept 5 2 = 2 ∧
    H_derivative_slack_entries 5 2 = 2 ∧
    B_derivative_slack_entries 5 2 = 2 ∧
    BA_derivative_bound_entries 5 2 = 2 :=
  control_horizon_truncation 5 2 (by norm_num) (by norm_num)

theorem list_sum_map_add {α : Type} (l : List α) (f g : α → ℕ) :
    (l.map (fun x => f x + g x)).sum = (l.map f).sum + (l.map g).sum := by
  induction l with
  | nil => simp
  | cons a l ih =>
    simp only [List.map_cons, List.sum_cons, ih]
    omega

theorem sum_map_const_nat {α : Type} (l : List α) (c : ℕ) :
    (l.map (fun _ => c)).sum = l.length * c := by
  induction l with
  | nil => simp
  | cons a l ih =>
    simp only [List.map_cons, List.sum_cons, List.length_cons, ih]
    ring

theorem sum_range'_single (n : ℕ) : ∀ (s k x : ℕ), s ≤ k → k < s + n →
    ((List.range' s n).map (fun d => if k = d then x else 0)).sum = x := by
  induction n with
  | zero => intro s k x hl hr; omega
  | succ m ih =>
    intro s k x hl hr
    rw [List.range'_succ]
    simp only [List.map_cons, List.sum_cons]
    by_cases hk : k = s
    · subst hk
      rw [if_pos rfl]
      have hz : ((List.range' (k + 1) m).map (fun d => if k = d then x else 0)).sum = 0 := by
        apply List.sum_eq_zero
        intro y hy
        rw [List.mem_map] at hy
        obtain ⟨d, hd, rfl⟩ := hy
        rw [List.mem_range'_1] at hd
        rw [if_neg (by omega)]
      rw [hz]
      omega
    · rw [if_neg hk, ih (s + 1) k x (by omega) (by omega)]
      omega

theorem sumControlHorizons_cons (c : DerivativeConstraint) (l : List DerivativeConstraint)
    (d : ℕ) :
    sumControlHorizons (c :: l) d
      = (if c.derivative = d then c.controlHorizon else 0) + sumControlHorizons l d := by
  unfold sumControlHorizons
  by_cases h : c.derivative = d <;> simp [List.filter_cons, h]

theorem sumClampedControlHorizons_cons (c : DerivativeConstraint)
    (l : List DerivativeConstraint) (d N : ℕ) :
    sumClampedControlHorizons (c :: l) d N
      = (if c.derivative = d then min c.controlHorizon N else 0)
          + sumClampedControlHorizons l d N := by
  unfold sumClampedControlHorizons
  by_cases h : c.derivative = d <;> simp [List.filter_cons, h]

theorem sumClamped_eq_sumCH (dcs : List DerivativeConstraint) (d N : ℕ)
    (h : ∀ c ∈ dcs, c.controlHorizon ≤ N) :
    sumClampedControlHorizons dcs d N = sumControlHorizons dcs d := by
  induction dcs with
  | nil => rfl
  | cons c l ih =>
    rw [sumClampedControlHorizons_cons, sumControlHorizons_cons,
        ih (fun x hx => h x (List.mem_cons_of_mem _ hx))]
    have hc := h c (List.mem_cons_self c l)
    by_cases hd : c.derivative = d <;> simp [hd, min_eq_left hc]

theorem range'_sum_dcs (dcs : List DerivativeConstraint) (order : ℕ)
    (h : ∀ c ∈ dcs, 1 ≤ c.derivative ∧ c.derivative ≤ 3 ∧ c.derivative ≤ order) :
    ((List.range' 1 order).map (fun d => sumControlHorizons dcs d)).sum
      = sumControlHorizons dcs 1 + sumControlHorizons dcs 2 + sumControlHorizons dcs 3 := by
  induction dcs with
  | nil => simp [sumControlHorizons]
  | cons c l ih =>
    have hc := h c (List.mem_cons_self c l)
    have hl := fun x hx => h x (List.mem_cons_of_mem c hx)
    simp only [sumControlHorizons_cons]
    rw [list_sum_map_add, ih hl,
        sum_range'_single order 1 c.derivative c.controlHorizon hc.1 (by omega)]
    have hcase : c.derivative = 1 ∨ c.derivative = 2 ∨ c.derivative = 3 := by omega
    rcases hcase with h' | h' | h' <;> simp [h'] <;> omega

theorem sum_map_min_mul (fvs : List FreeVariable) (N order : ℕ)
    (h : ∀ v ∈ fvs, order ≤ v.order) :
    (fvs.map (fun v => min v.order order * N)).sum = fvs.length * (order * N) := by
  induction fvs with
  | nil => simp
  | cons v l ih =>
    simp only [List.map_cons, List.sum_cons, List.length_cons]
    rw [ih (fun x hx => h x (List.mem_cons_of_mem _ hx)),
        min_eq_right (h v (List.mem_cons_self v l))]
    ring

theorem sum_map_mul_min (fvs : List FreeVariable) (N order : ℕ)
    (h : ∀ v ∈ fvs, order ≤ v.order) :
    (fvs.map (fun v => N * min v.order order)).sum = fvs.length * (order * N) := by
  have hcomm : fvs.map (fun v => N * min v.order order)
      = fvs.map (fun v => min v.order order * N) :=
    List.map_congr_left fun v _ => mul_comm N (min v.order order)
  rw [hcomm, sum_map_min_mul fvs N order h]

theorem length_filter_pos_add (fvs : List FreeVariable) :
    (fvs.filter (fun v => has_position_limits v)).length
      + (fvs.filter (fun v => ! has_position_limits v)).length = fvs.length := by
  induction fvs with
  | nil => rfl
  | cons v l ih =>
    by_cases h : has_position_limits v <;>
      simp [List.filter_cons, h] <;> omega

theorem sum_filter_last (fvs : List FreeVariable) (order : ℕ)
    (h : ∀ v ∈ fvs, order ≤ v.order) :
    ((List.range' 1 (order - 1)).map
        (fun o => (fvs.filter (fun v => o ≤ min v.order order)).length)).sum
      = (order - 1) * fvs.length := by
  have hmap : ∀ o ∈ List.range' 1 (order - 1),
      (fvs.filter (fun v => o ≤ min v.order order)).length = fvs.length := by
    intro o ho
    rw [List.mem_range'_1] at ho
    have hfil : fvs.filter (fun v => o ≤ min v.order order) = fvs := by
      apply List.filter_eq_self.mpr
      intro v hv
      have hvo := h v hv
      simp only [decide_eq_true_eq]
      omega
    rw [hfil]
  rw [List.map_congr_left hmap, sum_map_const_nat, List.length_range']

theorem sum_filter_link (fvs : List FreeVariable) (order N : ℕ)
    (h : ∀ v ∈ fvs, order ≤ v.order) :
    ((List.range' 1 (order - 1)).map
        (fun o => (N - 1) * (fvs.filter (fun v => o + 1 ≤ min v.order order)).length)).sum
      = (order - 1) * ((N - 1) * fvs.length) := by
  have hmap : ∀ o ∈ List.range' 1 (order - 1),
      (N - 1) * (fvs.filter (fun v => o + 1 ≤ min v.order order)).length
        = (N - 1) * fvs.length := by
    intro o ho
    rw [List.mem_range'_1] at ho
    have hfil : fvs.filter (fun v => o + 1 ≤ min v.order order) = fvs := by
      apply List.filter_eq_self.mpr
      intro v hv
      have hvo := h v hv
      simp only [decide_eq_true_eq]
      omega
    rw [hfil]
  rw [List.map_congr_left hmap, sum_map_const_nat, List.length_range']

/-- Claim C1, counterexample: a build over two free variables of orders 1
and 3 with prediction horizon 3 (so controller order 3) violates the
dimension invariant: A has width 18 while H and B have height 12, because
A._compute_width enumerates the full controller order for every joint while
H takes min(variable order, controller order). -/
theorem mixed_order_dimension_mismatch :
    ¬ (A_compute_width [cVarA, cVarB] [] [] 3 (controllerOrder 3 [cVarA, cVarB])
          = (H_compute_height [cVarA, cVarB] [] [] 3 (controllerOrder 3 [cVarA, cVarB]) : ℤ) ∧
       H_compute_height [cVarA, cVarB] [] [] 3 (controllerOrder 3 [cVarA, cVarB])
          = B_len [cVarA, cVarB] [] [] 3 (controllerOrder 3 [cVarA, cVarB]) ∧
       A_compute_height [cVarA, cVarB] [] [] 3 (controllerOrder 3 [cVarA, cVarB])
          = (BA_len [cVarA, cVarB] [] [] 3 (controllerOrder 3 [cVarA, cVarB]) : ℤ)) := by
  intro hcontra
  have h := hcontra.1
  norm_num [A_compute_width, H_compute_height, controllerOrder, cVarA, cVarB,
    sumControlHorizons] at h

/-- Claim C1, amended: the dimension invariant width(A) = height(H) =
height(B) and height(A) = height(BA) holds for every build with prediction
horizon at least 1 and controller order at least 1 in which every free
variable has order at least the controller order and every derivative
constraint targets a derivative between velocity and min(controller order,
jerk) with control horizon at most the prediction horizon (bounds that
registration enforces). -/
theorem qp_matrix_dimension_invariant_uniform_order
    (fvs : List FreeVariable) (cs : List IntegralConstraint)
    (dcs : List DerivativeConstraint) (N order : ℕ)
    (h1 : ∀ v ∈ fvs, order ≤ v.order)
    (h2 : ∀ c ∈ dcs, 1 ≤ c.derivative ∧ c.derivative ≤ 3 ∧ c.derivative ≤ order
            ∧ c.controlHorizon ≤ N)
    (h3 : 1 ≤ order) (h4 : 1 ≤ N) :
    A_compute_width fvs cs dcs N order = (H_compute_height fvs cs dcs N order : ℤ) ∧
    H_compute_height fvs cs dcs N order = B_len fvs cs dcs N order ∧
    A_compute_height fvs cs dcs N order = (BA_len fvs cs dcs N order : ℤ) := by
  have hfree := sum_map_min_mul fvs N order h1
  have hfree2 := sum_map_mul_min fvs N order h1
  have hclamp : ∀ d, sumClampedControlHorizons dcs d N = sumControlHorizons dcs d :=
    fun d => sumClamped_eq_sumCH dcs d N (fun c hc => (h2 c hc).2.2.2)
  have hsum3 := range'_sum_dcs dcs order
    (fun c hc => ⟨(h2 c hc).1, (h2 c hc).2.1, (h2 c hc).2.2.1⟩)
  have hsumclamped : ((List.range' 1 order).map
        (fun d => sumClampedControlHorizons dcs d N)).sum
      = sumControlHorizons dcs 1 + sumControlHorizons dcs 2 + sumControlHorizons dcs 3 := by
    rw [List.map_congr_left (fun d _ => hclamp d), hsum3]
  have hpos := length_filter_pos_add fvs
  have hlast := sum_filter_last fvs order h1
  have hlink := sum_filter_link fvs order N h1
  refine ⟨?_, ?_, ?_⟩
  · unfold A_compute_width H_compute_height
    rw [hfree, hsum3]
    push_cast
    ring
  · unfold H_compute_height B_len
    rw [hfree, hfree2, hsum3, hsumclamped]
  · unfold A_compute_height BA_len
    rw [hlast, hlink, hsumclamped]
    have hpos2 : ((fvs.filter (fun v => ! has_position_limits v)).length : ℤ)
        = (fvs.length : ℤ) - ((fvs.filter (fun v => has_position_limits v)).length : ℤ) := by
      omega
    rw [hpos2]
    push_cast [Nat.cast_sub h3, Nat.cast_sub h4]
    ring

/-- Witness of the amended claim C1 at a single order-3 variable under
prediction horizon 3. -/
theorem qp_matrix_dimension_invariant_uniform_order_witness :
    A_compute_width [cVarB] [] [] 3 3 = (H_compute_height [cVarB] [] [] 3 3 : ℤ) ∧
    H_compute_height [cVarB] [] [] 3 3 = B_len [cVarB] [] [] 3 3 ∧
    A_compute_height [cVarB] [] [] 3 3 = (BA_len [cVarB] [] [] 3 3 : ℤ) :=
  qp_matrix_dimension_invariant_uniform_order [cVarB] [] [] 3 3
    (by simp [cVarB]) (by simp) (by norm_num) (by norm_num)

end Giskard
